import Mathlib

/-!
Verification development for the Shreesiddhi clinic booking backend.

The repository ships two server variants sharing one HTTP surface:

* a file-backed variant (`server.js`, and an older copy of it): each
  collection is a JSON array file; `clearFile` copies the live file into a
  single per-collection backup file and truncates the live file to `[]`;
  `undoClear` copies the backup file back over the live file.
* a MongoDB variant: collections are Mongo models, and "clear" first stores a
  timestamped `Backup` document (collection name, createdAt, data array, note)
  via `createBackupForCollection`, then `deleteMany` empties the live
  collection; "undo" (`restoreLatestBackupForCollection`) finds the `Backup`
  with the greatest `createdAt` for the collection and re-inserts its data.

Both variants are embedded below. File contents are modelled as the parsed
record array (the raw-string copy performed by `clearFile` and `undoClear`
preserves the parsed contents exactly, since `JSON.stringify` and `JSON.parse`
round-trip a record array). HTTP response bodies that matter to the claims are
flat JSON objects of scalars and are modelled as association lists, so that
the presence or absence of a key (for example `restored`) is observable.
-/

namespace Shreesiddhi

/-- Scalar JSON value, enough for the flat response bodies of the clear, undo
and patch routes. -/
inductive JScalar where
  | jstr (s : String)
  | jnum (n : Int)
  | jnull
deriving DecidableEq, Repr

/-- An HTTP response: status code plus a flat JSON object body, modelled as an
association list from key to scalar value. -/
structure JResponse where
  httpStatus : Nat
  body : List (String × JScalar)
deriving DecidableEq, Repr

/-- Field lookup in a flat JSON object body. -/
def lookupField (b : List (String × JScalar)) (k : String) : Option JScalar :=
  (b.find? (fun p => p.1 == k)).map (fun p => p.2)

/-! ## File-backed variant (server.js) -/

/-- JavaScript `v || null` on an optional string: an absent or empty (falsy)
string becomes null. -/
def jsOrNull (v : Option String) : Option String :=
  match v with
  | some s => if s = "" then none else some s
  | none => none

/-- JavaScript `v || d` on an optional string: an absent or empty (falsy)
string falls back to the default. -/
def jsOrElse (v : Option String) (d : String) : String :=
  match v with
  | some s => if s = "" then d else s
  | none => d

/-- Incoming request body for POST /api/appointment (fields the handler
reads; `fee` is given after the JavaScript numeric coercion, with absent or
non-numeric values mapping to none). -/
structure Submission where
  id : Option String
  name : Option String
  email : Option String
  phone : Option String
  bookingType : Option String
  fee : Option Nat
  date : Option String
  message : Option String
  msg : Option String
  status : Option String
  payment_id : Option String
  order_id : Option String
deriving DecidableEq, Repr

/-- A stored appointment record, as built by `pushAppointment` in server.js. -/
structure AppRecord where
  id : String
  name : Option String
  email : Option String
  phone : Option String
  bookingType : Option String
  fee : Nat
  date : Option String
  message : String
  status : String
  payment_id : Option String
  order_id : Option String
  timestamp : String
deriving DecidableEq, Repr

/-- The record literal constructed by `pushAppointment` (server.js lines
93-106). `nowMs` is the `Date.now()` millisecond value used for the generated
identifier, `nowIso` the ISO timestamp string. -/
def mkAppointment (obj : Submission) (nowMs : Nat) (nowIso : String) : AppRecord where
  id := jsOrElse obj.id ("apt_" ++ Nat.repr nowMs)
  name := jsOrNull obj.name
  email := jsOrNull obj.email
  phone := jsOrNull obj.phone
  bookingType := jsOrNull obj.bookingType
  fee := obj.fee.getD 0
  date := jsOrNull obj.date
  message := jsOrElse obj.message (jsOrElse obj.msg "")
  status := jsOrElse obj.status "pending"
  payment_id := jsOrNull obj.payment_id
  order_id := jsOrNull obj.order_id
  timestamp := nowIso

/-- One file-backed collection: the live JSON file and its single backup file
under backup/, each either absent (none) or holding a record array. -/
structure FileColl where
  live : Option (List AppRecord)
  backupFile : Option (List AppRecord)
deriving DecidableEq, Repr

/-- readJsonArray: ensureJsonFile creates a missing file as an empty array,
then the contents are parsed; a missing or empty file reads as the empty
list. -/
def readJsonArray (s : FileColl) : List AppRecord :=
  s.live.getD []

/-- pushAppointment (server.js lines 91-110): read the array, append the new
record, write the array back. Returns the saved record and the new file
state. -/
def pushAppointment (s : FileColl) (obj : Submission) (nowMs : Nat)
    (nowIso : String) : AppRecord × FileColl :=
  let arr := readJsonArray s
  let r := mkAppointment obj nowMs nowIso
  (r, { s with live := some (arr ++ [r]) })

/-- clearFile (server.js lines 146-163): if the live file does not exist,
create it empty and write an empty backup; otherwise copy the live contents
into the backup file and truncate the live file to an empty array. -/
def clearFile (s : FileColl) : FileColl :=
  match s.live with
  | none => { live := some [], backupFile := some [] }
  | some cur => { live := some [], backupFile := some cur }

/-- undoClear (server.js lines 164-176): if no backup file exists return
false and change nothing; otherwise copy the backup contents over the live
file and return true. -/
def undoClear (s : FileColl) : Bool × FileColl :=
  match s.backupFile with
  | none => (false, s)
  | some b => (true, { s with live := some b })

/-- POST /api/appointments/undo (server.js lines 232-235): 200 with a
status/message body when undoClear succeeds, else 400 with an error body. -/
def undoAppointmentsRoute (s : FileColl) : JResponse × FileColl :=
  match undoClear s with
  | (true, s1) =>
      (⟨200, [("status", JScalar.jstr "success"),
              ("message", JScalar.jstr "Appointments restored from backup")]⟩, s1)
  | (false, s1) =>
      (⟨400, [("error", JScalar.jstr "No backup available")]⟩, s1)

/-- DELETE /api/appointments (server.js lines 214-222), fault-free path. -/
def clearAppointmentsRoute (s : FileColl) : JResponse × FileColl :=
  (⟨200, [("status", JScalar.jstr "success"),
          ("message", JScalar.jstr "All appointments cleared. You can undo.")]⟩,
   clearFile s)

/-- GET /api/appointments (server.js line 210): the handler returns
readJsonArray verbatim, with no sorting step. -/
def listAppointmentsFile (s : FileColl) : List AppRecord :=
  readJsonArray s

/-- Body of a PATCH /api/appointments/:id request: which record fields the
patch carries (a key present in the JSON body is a some value). The handler
spreads the body over the stored record and then forces the timestamp key
back to the stored one, so a timestamp in the patch never survives. -/
structure Patch where
  status : Option String
  name : Option String
  fee : Option Nat
  timestamp : Option String
deriving DecidableEq, Repr

/-- The merged record built by the PATCH handler (server.js line 274):
spread of the old record, then the patch body, then
timestamp := old timestamp if truthy else the current ISO time. A patch key
that is present overrides the old field; the patch timestamp is always
overridden back. -/
def mergePatch (old : AppRecord) (p : Patch) (nowIso : String) : AppRecord :=
  { old with
    status := p.status.getD old.status
    name := match p.name with | some v => some v | none => old.name
    fee := p.fee.getD old.fee
    timestamp := if old.timestamp = "" then nowIso else old.timestamp }

/-- PATCH /api/appointments/:id core (server.js lines 271-275): findIndex of
the first record whose id equals the request id, replace it in place with the
merged record; none when no record matches (the 404 path). Expressed
structurally: the recursion replaces the first match and keeps everything
else. -/
def patchAppointment (arr : List AppRecord) (id : String) (p : Patch)
    (nowIso : String) : Option (List AppRecord × AppRecord) :=
  match arr with
  | [] => none
  | a :: rest =>
    if a.id = id then
      let upd := mergePatch a p nowIso
      some (upd :: rest, upd)
    else
      match patchAppointment rest id p nowIso with
      | none => none
      | some (rest1, u) => some (a :: rest1, u)

/-- PATCH /api/appointments/:id route (server.js lines 268-281): 404 and no
write when the id matches nothing, otherwise write the updated array and
answer 200. readJsonArray's ensureJsonFile side effect (creating a missing
live file as an empty array) is applied on both paths. -/
def patchAppointmentsRoute (s : FileColl) (id : String) (p : Patch)
    (nowIso : String) : JResponse × FileColl :=
  let arr := readJsonArray s
  let s0 : FileColl := { s with live := some arr }
  match patchAppointment arr id p nowIso with
  | none => (⟨404, [("error", JScalar.jstr "Appointment not found")]⟩, s0)
  | some (arr1, _u) =>
      (⟨200, [("status", JScalar.jstr "success")]⟩, { s0 with live := some arr1 })

/-! ## MongoDB variant (timestamped backups) -/

/-- The collection names the Mongo variant's modelMap knows. -/
inductive CollName where
  | appointments
  | feedback
  | payments
deriving DecidableEq, Repr

/-- A stored Mongo document, abstracted to the coerced schema fields the
claims inspect. `oid` stands for the Mongo ObjectId, `timestamp` for the Date
field in epoch milliseconds. The schemas are strict:false; extra fields ride
along verbatim and are not modelled separately. -/
structure MDoc where
  oid : Nat
  name : Option String
  fee : Nat
  status : String
  timestamp : Nat
deriving DecidableEq, Repr

/-- A Backup document: collection name, creation time, captured data array,
optional note (BackupSchema). -/
structure MBackup where
  collectionName : CollName
  createdAt : Nat
  data : List MDoc
  note : Option String
deriving DecidableEq, Repr

/-- State of the Mongo variant: the three live collections, the Backup
collection in insertion order, and the current clock (Date.now, strictly
advanced after each route). -/
structure MState where
  appointments : List MDoc
  feedback : List MDoc
  payments : List MDoc
  backups : List MBackup
  now : Nat
deriving DecidableEq, Repr

/-- Live contents of a collection. -/
def getColl (s : MState) : CollName → List MDoc
  | CollName.appointments => s.appointments
  | CollName.feedback => s.feedback
  | CollName.payments => s.payments

/-- Replace the live contents of a collection. -/
def setColl (s : MState) (c : CollName) (docs : List MDoc) : MState :=
  match c with
  | CollName.appointments => { s with appointments := docs }
  | CollName.feedback => { s with feedback := docs }
  | CollName.payments => { s with payments := docs }

/-- Clock advance at the end of a route. -/
def tick (s : MState) : MState :=
  { s with now := s.now + 1 }

/-- createBackupForCollection (Mongo variant lines 248-270): Backup.create of
a new document holding the data array. The whole body sits in a try/catch
whose catch only logs, so when Backup.create throws (faulty = true) the
failure is swallowed and the state is returned unchanged — the caller cannot
see that no snapshot was stored. -/
def createBackupForCollection (s : MState) (c : CollName) (dataArray : List MDoc)
    (note : Option String) (faulty : Bool) : MState :=
  if faulty then s
  else { s with backups := s.backups ++ [⟨c, s.now, dataArray, note⟩] }

/-- DELETE route of the Mongo variant (lines 273-283): read the current
contents, createBackupForCollection, then deleteMany empties the live
collection, then 200. Because createBackupForCollection swallows its own
failure, the purge runs even when faulty = true. -/
def clearCollectionRoute (s : MState) (c : CollName) (faulty : Bool) :
    JResponse × MState :=
  let current := getColl s c
  let s1 := createBackupForCollection s c current (some "Cleared by admin") faulty
  let s2 := setColl s1 c []
  (⟨200, [("status", JScalar.jstr "success"),
          ("message", JScalar.jstr "All cleared. You can undo (restores the latest backup).")]⟩,
   tick s2)

/-- One step of scanning the Backup collection for the latest backup of a
collection: keep the candidate with the greatest createdAt, preferring the
later-inserted one on ties. -/
def latestStep (c : CollName) (acc : Option MBackup) (b : MBackup) : Option MBackup :=
  if b.collectionName = c then
    match acc with
    | none => some b
    | some a => if a.createdAt ≤ b.createdAt then some b else some a
  else acc

/-- Backup.findOne with sort createdAt descending: the matching backup with
the greatest createdAt; on equal timestamps the most recently inserted wins. -/
def latestBackup (c : CollName) (bs : List MBackup) : Option MBackup :=
  bs.foldl (latestStep c) none

/-- restoreLatestBackupForCollection (Mongo variant lines 299-332): fetch the
latest backup; none means the no-backup failure; otherwise deleteMany and
insertMany the captured docs. Returns ok, the message, the restored count,
and the new state. -/
def restoreLatestBackupForCollection (s : MState) (c : CollName) :
    (Bool × String × Nat) × MState :=
  match latestBackup c s.backups with
  | none => ((false, "No backup available", 0), s)
  | some latest =>
      let docs := latest.data
      ((true, "Restored from latest backup", docs.length), setColl s c docs)

/-- POST undo route of the Mongo variant (lines 334-343): 400 with the error
message when the restore reports not ok, else 200 with status, message and
the restored count. -/
def undoCollectionRoute (s : MState) (c : CollName) : JResponse × MState :=
  match restoreLatestBackupForCollection s c with
  | ((false, msg, _), s1) =>
      (⟨400, [("error", JScalar.jstr msg)]⟩, tick s1)
  | ((true, msg, n), s1) =>
      (⟨200, [("status", JScalar.jstr "success"),
              ("message", JScalar.jstr msg),
              ("restored", JScalar.jnum n)]⟩, tick s1)

/-- GET /api/appointments of the Mongo variant (lines 197-212): find() with
sort timestamp descending. -/
def listMongoAppointments (s : MState) : List MDoc :=
  List.insertionSort (fun a b => b.timestamp ≤ a.timestamp) s.appointments

/-- One admin action on the Mongo variant, for reasoning over sequences of
clear and undo operations. -/
inductive MOp where
  | clear (c : CollName) (faulty : Bool)
  | undo (c : CollName)
deriving DecidableEq, Repr

/-- State transition of one admin action. -/
def mstep (s : MState) : MOp → MState
  | MOp.clear c f => (clearCollectionRoute s c f).2
  | MOp.undo c => (undoCollectionRoute s c).2

/-- Run a sequence of admin actions. -/
def mrun (s : MState) : List MOp → MState :=
  List.foldl mstep s

/-! ## State bookkeeping lemmas for the Mongo variant -/

@[simp] theorem getColl_setColl (s : MState) (c : CollName) (d : List MDoc) :
    getColl (setColl s c d) c = d := by
  cases c <;> rfl

@[simp] theorem setColl_backups (s : MState) (c : CollName) (d : List MDoc) :
    (setColl s c d).backups = s.backups := by
  cases c <;> rfl

@[simp] theorem setColl_now (s : MState) (c : CollName) (d : List MDoc) :
    (setColl s c d).now = s.now := by
  cases c <;> rfl

@[simp] theorem tick_backups (s : MState) : (tick s).backups = s.backups := rfl

@[simp] theorem getColl_tick (s : MState) (c : CollName) :
    getColl (tick s) c = getColl s c := by
  cases c <;> rfl

theorem foldl_latestStep_mem (c : CollName) :
    ∀ (bs : List MBackup) (acc : Option MBackup) (a : MBackup),
      List.foldl (latestStep c) acc bs = some a →
      (a ∈ bs ∧ a.collectionName = c) ∨ acc = some a := by
  intro bs
  induction bs with
  | nil => intro acc a h; exact Or.inr h
  | cons x bs ih =>
    intro acc a h
    rcases ih (latestStep c acc x) a h with h1 | h2
    · exact Or.inl ⟨List.mem_cons_of_mem x h1.1, h1.2⟩
    · unfold latestStep at h2
      by_cases hx : x.collectionName = c
      · rw [if_pos hx] at h2
        cases acc with
        | none =>
          injection h2 with h2
          exact Or.inl ⟨by rw [← h2]; exact List.mem_cons_self x bs, by rw [← h2]; exact hx⟩
        | some y =>
          have h3 : (if y.createdAt ≤ x.createdAt then some x else some y) = some a := h2
          by_cases hy : y.createdAt ≤ x.createdAt
          · rw [if_pos hy] at h3
            injection h3 with h3
            exact Or.inl ⟨by rw [← h3]; exact List.mem_cons_self x bs, by rw [← h3]; exact hx⟩
          · rw [if_neg hy] at h3
            exact Or.inr h3
      · rw [if_neg hx] at h2
        exact Or.inr h2

/-- Appending a backup whose createdAt dominates every earlier backup of the
same collection makes it the latest one. -/
theorem latestBackup_append_last (bs : List MBackup) (b : MBackup) (c : CollName)
    (hc : b.collectionName = c)
    (hmax : ∀ a ∈ bs, a.collectionName = c → a.createdAt ≤ b.createdAt) :
    latestBackup c (bs ++ [b]) = some b := by
  unfold latestBackup
  rw [List.foldl_append]
  simp only [List.foldl_cons, List.foldl_nil]
  cases hacc : List.foldl (latestStep c) none bs with
  | none => simp [latestStep, hc]
  | some a =>
    rcases foldl_latestStep_mem c bs none a hacc with ⟨hmem, hcol⟩ | habs
    · have hle := hmax a hmem hcol
      simp [latestStep, hc, hle]
    · exact absurd habs (by simp)

@[simp] theorem undoRoute_backups (s : MState) (c : CollName) :
    ((undoCollectionRoute s c).2).backups = s.backups := by
  unfold undoCollectionRoute restoreLatestBackupForCollection
  cases h : latestBackup c s.backups <;> simp [h]

/-- When a latest backup exists, undo replaces the live collection with its
data and reports its size. -/
theorem undoRoute_of_latest (s : MState) (c : CollName) (b : MBackup)
    (h : latestBackup c s.backups = some b) :
    undoCollectionRoute s c =
      (⟨200, [("status", JScalar.jstr "success"),
              ("message", JScalar.jstr "Restored from latest backup"),
              ("restored", JScalar.jnum b.data.length)]⟩,
       tick (setColl s c b.data)) := by
  unfold undoCollectionRoute restoreLatestBackupForCollection
  rw [h]

/-- When no backup exists for the collection, undo fails with the no-backup
error and leaves the state alone apart from the clock. -/
theorem undoRoute_of_none (s : MState) (c : CollName)
    (h : latestBackup c s.backups = none) :
    undoCollectionRoute s c =
      (⟨400, [("error", JScalar.jstr "No backup available")]⟩, tick s) := by
  unfold undoCollectionRoute restoreLatestBackupForCollection
  rw [h]

/-! ## Decimal representation lemmas

The file-backed pushers build identifiers as apt_ followed by the decimal
rendering of Date.now(). To relate identifier equality to millisecond
equality we prove that the decimal rendering Nat.repr is injective. -/

/-- Structural form of the digit list produced by Nat.toDigits at base 10:
most significant digits first. -/
def decDigits (n : Nat) : List Char :=
  if _h : n < 10 then [Nat.digitChar n]
  else decDigits (n / 10) ++ [Nat.digitChar (n % 10)]
decreasing_by
  exact Nat.div_lt_self (by omega) (by omega)

theorem toDigitsCore_shift (b : Nat) :
    ∀ (f n : Nat) (acc : List Char),
      Nat.toDigitsCore b f n acc = Nat.toDigitsCore b f n [] ++ acc := by
  intro f
  induction f with
  | zero => intro n acc; simp [Nat.toDigitsCore]
  | succ f ih =>
    intro n acc
    by_cases h : n / b = 0
    · simp [Nat.toDigitsCore, h]
    · simp only [Nat.toDigitsCore, h, if_neg, ite_false]
      rw [ih (n / b) (Nat.digitChar (n % b) :: acc),
        ih (n / b) [Nat.digitChar (n % b)]]
      simp

theorem toDigitsCore_eq_decDigits :
    ∀ (f n : Nat), n < f → Nat.toDigitsCore 10 f n [] = decDigits n := by
  intro f
  induction f with
  | zero => intro n h; omega
  | succ f ih =>
    intro n h
    by_cases h10 : n < 10
    · have hd : n / 10 = 0 := by omega
      have hm : n % 10 = n := by omega
      rw [decDigits]
      simp [Nat.toDigitsCore, hd, hm, h10]
    · have hd : ¬ n / 10 = 0 := by omega
      have hlt : n / 10 < f := by omega
      rw [decDigits]
      simp only [Nat.toDigitsCore, hd, ite_false, h10, dite_false]
      rw [toDigitsCore_shift, ih _ hlt]

theorem digitChar_inj_lt :
    ∀ m : Nat, m < 10 → ∀ n : Nat, n < 10 →
      Nat.digitChar m = Nat.digitChar n → m = n := by
  decide

theorem decDigits_lt {n : Nat} (h : n < 10) : decDigits n = [Nat.digitChar n] := by
  conv_lhs => rw [decDigits]
  simp [h]

theorem decDigits_ge {n : Nat} (h : ¬ n < 10) :
    decDigits n = decDigits (n / 10) ++ [Nat.digitChar (n % 10)] := by
  conv_lhs => rw [decDigits]
  simp [h]

theorem decDigits_ne_nil (n : Nat) : decDigits n ≠ [] := by
  by_cases h : n < 10
  · rw [decDigits_lt h]; simp
  · rw [decDigits_ge h]; simp

theorem decDigits_injective : ∀ m n : Nat, decDigits m = decDigits n → m = n := by
  intro m
  induction m using Nat.strong_induction_on with
  | _ m ih =>
    intro n h
    by_cases hm : m < 10 <;> by_cases hn : n < 10
    · rw [decDigits_lt hm, decDigits_lt hn] at h
      exact digitChar_inj_lt m hm n hn (List.cons.inj h).1
    · exfalso
      rw [decDigits_lt hm, decDigits_ge hn] at h
      cases hl : decDigits (n / 10) with
      | nil => exact decDigits_ne_nil (n / 10) hl
      | cons a l => rw [hl] at h; simp at h
    · exfalso
      rw [decDigits_ge hm, decDigits_lt hn] at h
      cases hl : decDigits (m / 10) with
      | nil => exact decDigits_ne_nil (m / 10) hl
      | cons a l => rw [hl] at h; simp at h
    · rw [decDigits_ge hm, decDigits_ge hn] at h
      have h2 := congrArg List.reverse h
      simp only [List.reverse_append, List.reverse_cons, List.reverse_nil,
        List.nil_append, List.singleton_append, List.cons.injEq] at h2
      have hdiv : m / 10 = n / 10 :=
        ih (m / 10) (Nat.div_lt_self (by omega) (by omega)) (n / 10)
          (List.reverse_injective h2.2)
      have hmod : m % 10 = n % 10 :=
        digitChar_inj_lt _ (Nat.mod_lt _ (by omega)) _ (Nat.mod_lt _ (by omega)) h2.1
      omega

theorem natRepr_injective {m n : Nat} (h : Nat.repr m = Nat.repr n) : m = n := by
  have h1 : (Nat.toDigits 10 m).asString = (Nat.toDigits 10 n).asString := h
  have h2 : Nat.toDigits 10 m = Nat.toDigits 10 n := List.asString_inj.mp h1
  have h3 : decDigits m = decDigits n := by
    have hm := toDigitsCore_eq_decDigits (m + 1) m (Nat.lt_succ_self m)
    have hn := toDigitsCore_eq_decDigits (n + 1) n (Nat.lt_succ_self n)
    simpa [Nat.toDigits, hm, hn] using h2
  exact decDigits_injective m n h3

theorem aptId_injective {t1 t2 : Nat}
    (h : "apt_" ++ Nat.repr t1 = "apt_" ++ Nat.repr t2) : t1 = t2 := by
  apply natRepr_injective
  have hdata : "apt_".data ++ (Nat.repr t1).data
      = "apt_".data ++ (Nat.repr t2).data := congrArg String.data h
  have hd := List.append_cancel_left hdata
  have h2 : (Nat.repr t1).data = (Nat.repr t2).data := hd
  cases hr1 : Nat.repr t1 with
  | mk d1 =>
    cases hr2 : Nat.repr t2 with
    | mk d2 =>
      rw [hr1, hr2] at h2
      exact congrArg String.mk h2

/-! ## Sample values used in concrete instantiations -/

/-- A sample Mongo appointment document. -/
def ashaDoc : MDoc := ⟨1, some "Asha", 500, "pending", 100⟩

/-- A second sample Mongo appointment document. -/
def raviDoc : MDoc := ⟨2, some "Ravi", 300, "done", 200⟩

/-- A sample file-variant appointment record, earlier timestamp. -/
def ashaRec : AppRecord :=
  ⟨"apt_1", some "Asha", none, none, none, 500, none, "", "pending", none, none,
   "2024-01-01T10:00:00.000Z"⟩

/-- A second sample file-variant appointment record, later timestamp. -/
def raviRec : AppRecord :=
  ⟨"apt_2", some "Ravi", none, none, none, 300, none, "", "pending", none, none,
   "2024-01-02T10:00:00.000Z"⟩

/-- A sample submission body with no client-supplied id. -/
def subA : Submission :=
  ⟨none, some "Asha", none, none, none, some 500, none, none, none, none, none, none⟩

/-- A second sample submission body with no client-supplied id. -/
def subB : Submission :=
  ⟨none, some "Ravi", none, none, none, some 300, none, none, none, none, none, none⟩

/-! ## Claims -/

/-- C1: the claim reads that if snapshot creation fails during a clear, the
clear does not proceed and the collection is unchanged (fail closed). In the
Mongo variant this is false: createBackupForCollection catches and swallows
the Backup.create failure, so the DELETE route goes on to deleteMany. At the
concrete failing input below (one stored appointment, Backup.create
throwing) the route still answers 200, the live collection is emptied, no
snapshot exists, and a subsequent undo fails with 400 — the records are
irrecoverably lost, contradicting the fail-closed requirement the spec
states. -/
theorem C1_mongo_snapshot_failure_purge_proceeds :
    (clearCollectionRoute ⟨[ashaDoc], [], [], [], 7⟩ CollName.appointments true).1.httpStatus = 200
    ∧ ((clearCollectionRoute ⟨[ashaDoc], [], [], [], 7⟩ CollName.appointments true).2).appointments = []
    ∧ ((clearCollectionRoute ⟨[ashaDoc], [], [], [], 7⟩ CollName.appointments true).2).backups = []
    ∧ (undoCollectionRoute
        (clearCollectionRoute ⟨[ashaDoc], [], [], [], 7⟩ CollName.appointments true).2
        CollName.appointments).1.httpStatus = 400 := by
  exact ⟨rfl, rfl, rfl, rfl⟩

/-- C2: clear immediately followed by undo restores exactly the record set
that was stored: in the file variant the restored live contents equal the
prior contents verbatim, and in the Mongo variant (given the reachability
invariant that all existing backups are dated no later than the current
clock) the latest backup is the one the clear just wrote, so undo reinstalls
exactly the prior documents — same count, same identifiers, same fields. -/
theorem C2_clear_then_undo_restores_exactly :
    (∀ s : FileColl, readJsonArray (undoClear (clearFile s)).2 = readJsonArray s)
    ∧ (∀ (s : MState) (c : CollName),
        (∀ b ∈ s.backups, b.createdAt ≤ s.now) →
        getColl ((undoCollectionRoute (clearCollectionRoute s c false).2 c).2) c
          = getColl s c) := by
  constructor
  · intro s
    cases h : s.live <;> simp [clearFile, undoClear, readJsonArray, h]
  · intro s c hinv
    have hbk : ((clearCollectionRoute s c false).2).backups
        = s.backups ++ [⟨c, s.now, getColl s c, some "Cleared by admin"⟩] := by
      simp [clearCollectionRoute, createBackupForCollection]
    have hb : latestBackup c ((clearCollectionRoute s c false).2).backups
        = some ⟨c, s.now, getColl s c, some "Cleared by admin"⟩ := by
      rw [hbk]
      exact latestBackup_append_last _ _ _ rfl (fun a ha _ => hinv a ha)
    rw [undoRoute_of_latest _ _ _ hb]
    simp

/-- C2 witness: the round trip evaluated at one stored appointment in each
variant. -/
theorem C2_witness :
    readJsonArray (undoClear (clearFile ⟨some [ashaRec], none⟩)).2
      = readJsonArray ⟨some [ashaRec], none⟩
    ∧ getColl ((undoCollectionRoute
        (clearCollectionRoute ⟨[ashaDoc], [], [], [], 7⟩ CollName.appointments false).2
        CollName.appointments).2) CollName.appointments
      = getColl ⟨[ashaDoc], [], [], [], 7⟩ CollName.appointments :=
  ⟨C2_clear_then_undo_restores_exactly.1 ⟨some [ashaRec], none⟩,
   C2_clear_then_undo_restores_exactly.2 ⟨[ashaDoc], [], [], [], 7⟩
     CollName.appointments (by decide)⟩

/-- C3: undo on a collection with no snapshot always fails with the
no-backup client error: the file variant answers 400 with the error body and
leaves the state untouched, and the Mongo variant answers 400 with the same
error and leaves the live collection unchanged; neither path can succeed or
raise a server fault. -/
theorem C3_undo_without_snapshot_fails :
    (∀ s : FileColl, s.backupFile = none →
      undoAppointmentsRoute s
        = (⟨400, [("error", JScalar.jstr "No backup available")]⟩, s))
    ∧ (∀ (s : MState) (c : CollName), latestBackup c s.backups = none →
        (undoCollectionRoute s c).1
          = ⟨400, [("error", JScalar.jstr "No backup available")]⟩
        ∧ getColl ((undoCollectionRoute s c).2) c = getColl s c) := by
  constructor
  · intro s h
    simp [undoAppointmentsRoute, undoClear, h]
  · intro s c h
    rw [undoRoute_of_none _ _ h]
    exact ⟨rfl, by simp⟩

/-- C3 witness: undo with no backup at concrete states of both variants. -/
theorem C3_witness :
    undoAppointmentsRoute ⟨some [ashaRec], none⟩
      = (⟨400, [("error", JScalar.jstr "No backup available")]⟩, ⟨some [ashaRec], none⟩)
    ∧ (undoCollectionRoute ⟨[ashaDoc], [], [], [], 3⟩ CollName.appointments).1
      = ⟨400, [("error", JScalar.jstr "No backup available")]⟩
    ∧ getColl ((undoCollectionRoute ⟨[ashaDoc], [], [], [], 3⟩ CollName.appointments).2)
        CollName.appointments
      = getColl ⟨[ashaDoc], [], [], [], 3⟩ CollName.appointments :=
  ⟨C3_undo_without_snapshot_fails.1 ⟨some [ashaRec], none⟩ rfl,
   (C3_undo_without_snapshot_fails.2 ⟨[ashaDoc], [], [], [], 3⟩ CollName.appointments rfl).1,
   (C3_undo_without_snapshot_fails.2 ⟨[ashaDoc], [], [], [], 3⟩ CollName.appointments rfl).2⟩

/-- C4: with at least one snapshot present and no intervening clear, undo is
idempotent: the second consecutive undo re-applies the same latest snapshot,
so the final collection contents agree after one undo and after two, in both
variants. -/
theorem C4_undo_idempotent :
    (∀ (s : FileColl) (arr : List AppRecord), s.backupFile = some arr →
      ((undoClear (undoClear s).2).2).live = ((undoClear s).2).live)
    ∧ (∀ (s : MState) (c : CollName) (b : MBackup), latestBackup c s.backups = some b →
        getColl ((undoCollectionRoute (undoCollectionRoute s c).2 c).2) c
          = getColl ((undoCollectionRoute s c).2) c) := by
  constructor
  · intro s arr h
    simp [undoClear, h]
  · intro s c b h
    have h2 : latestBackup c ((undoCollectionRoute s c).2).backups = some b := by
      rw [undoRoute_backups]
      exact h
    rw [undoRoute_of_latest _ _ _ h2, undoRoute_of_latest _ _ _ h]
    simp

/-- C4 witness: double undo evaluated at concrete states with one snapshot. -/
theorem C4_witness :
    ((undoClear (undoClear ⟨some [], some [ashaRec]⟩).2).2).live
      = ((undoClear ⟨some [], some [ashaRec]⟩).2).live
    ∧ getColl ((undoCollectionRoute
        (undoCollectionRoute ⟨[], [], [], [⟨CollName.appointments, 5, [ashaDoc], none⟩], 9⟩
          CollName.appointments).2
        CollName.appointments).2) CollName.appointments
      = getColl ((undoCollectionRoute
          ⟨[], [], [], [⟨CollName.appointments, 5, [ashaDoc], none⟩], 9⟩
          CollName.appointments).2) CollName.appointments :=
  ⟨C4_undo_idempotent.1 ⟨some [], some [ashaRec]⟩ [ashaRec] rfl,
   C4_undo_idempotent.2 ⟨[], [], [], [⟨CollName.appointments, 5, [ashaDoc], none⟩], 9⟩
     CollName.appointments ⟨CollName.appointments, 5, [ashaDoc], none⟩ rfl⟩

/-- C5 counterexample: the claim reads that the list operation returns the
records ordered by timestamp descending. The file variant's GET handler
returns readJsonArray with no sorting: at the concrete state below it
returns the stored order, whose first record has a strictly smaller ISO
timestamp than the second (ISO-8601 strings compare chronologically in
lexicographic character order) — not descending order. -/
theorem C5_file_list_not_timestamp_descending :
    listAppointmentsFile ⟨some [ashaRec, raviRec], none⟩ = [ashaRec, raviRec]
    ∧ ashaRec.timestamp.data < raviRec.timestamp.data := by
  exact ⟨rfl, by decide⟩

/-- C5 amended: the file variant's list returns all current records in
stored (insertion) order, and the Mongo variant returns them sorted by
timestamp descending; in both, an empty collection yields an empty sequence
rather than an error. -/
theorem C5_list_contents_amended :
    (∀ s : FileColl, listAppointmentsFile s = s.live.getD [])
    ∧ (∀ m : MState,
        List.Sorted (fun a b : MDoc => b.timestamp ≤ a.timestamp) (listMongoAppointments m)
        ∧ List.Perm (listMongoAppointments m) m.appointments
        ∧ (m.appointments = [] → listMongoAppointments m = [])) := by
  constructor
  · intro s
    rfl
  · intro m
    haveI ht : IsTotal MDoc (fun a b => b.timestamp ≤ a.timestamp) :=
      ⟨fun a b => le_total b.timestamp a.timestamp⟩
    haveI htr : IsTrans MDoc (fun a b => b.timestamp ≤ a.timestamp) :=
      ⟨fun _ _ _ hab hbc => le_trans hbc hab⟩
    refine ⟨List.sorted_insertionSort _ _, List.perm_insertionSort _ _, ?_⟩
    intro h
    simp [listMongoAppointments, h]

/-- C5 witness: the amended statement evaluated at concrete states,
including an empty Mongo collection. -/
theorem C5_witness :
    listAppointmentsFile ⟨some [raviRec], none⟩ = (some [raviRec] : Option (List AppRecord)).getD []
    ∧ List.Sorted (fun a b : MDoc => b.timestamp ≤ a.timestamp)
        (listMongoAppointments ⟨[ashaDoc, raviDoc], [], [], [], 0⟩)
    ∧ List.Perm (listMongoAppointments ⟨[ashaDoc, raviDoc], [], [], [], 0⟩)
        [ashaDoc, raviDoc]
    ∧ listMongoAppointments ⟨[], [], [], [], 0⟩ = [] :=
  ⟨C5_list_contents_amended.1 ⟨some [raviRec], none⟩,
   (C5_list_contents_amended.2 ⟨[ashaDoc, raviDoc], [], [], [], 0⟩).1,
   (C5_list_contents_amended.2 ⟨[ashaDoc, raviDoc], [], [], [], 0⟩).2.1,
   (C5_list_contents_amended.2 ⟨[], [], [], [], 0⟩).2.2 rfl⟩

/-- C6 counterexample: the claim reads that snapshots, once created, are
never mutated or deleted and accumulate historically. The file variant keeps
a single backup file per collection: after clearing a one-record collection
the backup holds that record, but a second clear overwrites the backup with
the now-empty live contents — the snapshot created by the first clear no
longer exists with its original contents. -/
theorem C6_file_second_clear_destroys_snapshot :
    (clearFile ⟨some [ashaRec], none⟩).backupFile = some [ashaRec]
    ∧ (clearFile (clearFile ⟨some [ashaRec], none⟩)).backupFile = some [] :=
  ⟨rfl, rfl⟩

/-- C6 amended: in the Mongo variant snapshots do accumulate: over any
sequence of clear and undo operations the Backup collection only ever grows
by appending, so every previously created snapshot survives with its
original contents; in the file variant only the single most recent backup is
kept and each clear overwrites it. -/
theorem C6_mongo_backups_append_only :
    ∀ (ops : List MOp) (s : MState), ∃ t, (mrun s ops).backups = s.backups ++ t := by
  intro ops
  induction ops with
  | nil =>
    intro s
    exact ⟨[], by simp [mrun]⟩
  | cons op ops ih =>
    intro s
    have hstep : ∃ u, (mstep s op).backups = s.backups ++ u := by
      cases op with
      | clear c f =>
        cases f with
        | false =>
          exact ⟨[⟨c, s.now, getColl s c, some "Cleared by admin"⟩],
            by simp [mstep, clearCollectionRoute, createBackupForCollection]⟩
        | true =>
          exact ⟨[], by simp [mstep, clearCollectionRoute, createBackupForCollection]⟩
      | undo c =>
        exact ⟨[], by simp [mstep]⟩
    obtain ⟨u, hu⟩ := hstep
    obtain ⟨t, ht⟩ := ih (mstep s op)
    exact ⟨u ++ t,
      by rw [show mrun s (op :: ops) = mrun (mstep s op) ops from rfl, ht, hu,
        List.append_assoc]⟩

/-- C7 counterexample: the claim reads that every successful undo response
has a restored count in its body. The file variant's undo route answers 200
with a status and message only: at the concrete state below the body has no
restored key at all. -/
theorem C7_file_undo_response_lacks_restored_count :
    (undoAppointmentsRoute ⟨some [], some [ashaRec]⟩).1.httpStatus = 200
    ∧ lookupField (undoAppointmentsRoute ⟨some [], some [ashaRec]⟩).1.body "status"
      = some (JScalar.jstr "success")
    ∧ lookupField (undoAppointmentsRoute ⟨some [], some [ashaRec]⟩).1.body "restored"
      = none := by
  exact ⟨rfl, by decide, by decide⟩

/-- C7 amended: in the Mongo variant every successful undo response does
report the restored count: whenever a latest snapshot exists the route
answers 200 with status success and a restored field equal to the number of
records in the applied snapshot, which are exactly the documents installed
into the live collection. The file variant's success body carries no
restored count. -/
theorem C7_mongo_undo_reports_restored_count :
    ∀ (s : MState) (c : CollName) (b : MBackup), latestBackup c s.backups = some b →
      (undoCollectionRoute s c).1.httpStatus = 200
      ∧ lookupField (undoCollectionRoute s c).1.body "status" = some (JScalar.jstr "success")
      ∧ lookupField (undoCollectionRoute s c).1.body "restored"
        = some (JScalar.jnum b.data.length)
      ∧ getColl ((undoCollectionRoute s c).2) c = b.data := by
  intro s c b h
  rw [undoRoute_of_latest _ _ _ h]
  refine ⟨rfl, rfl, rfl, by simp⟩

/-- C7 witness: the Mongo undo response evaluated at a concrete state whose
latest snapshot holds one document. -/
theorem C7_witness :
    (undoCollectionRoute ⟨[], [], [], [⟨CollName.appointments, 5, [ashaDoc], none⟩], 9⟩
        CollName.appointments).1.httpStatus = 200
    ∧ lookupField (undoCollectionRoute
        ⟨[], [], [], [⟨CollName.appointments, 5, [ashaDoc], none⟩], 9⟩
        CollName.appointments).1.body "status" = some (JScalar.jstr "success")
    ∧ lookupField (undoCollectionRoute
        ⟨[], [], [], [⟨CollName.appointments, 5, [ashaDoc], none⟩], 9⟩
        CollName.appointments).1.body "restored"
      = some (JScalar.jnum ([ashaDoc] : List MDoc).length)
    ∧ getColl ((undoCollectionRoute
        ⟨[], [], [], [⟨CollName.appointments, 5, [ashaDoc], none⟩], 9⟩
        CollName.appointments).2) CollName.appointments = [ashaDoc] :=
  C7_mongo_undo_reports_restored_count
    ⟨[], [], [], [⟨CollName.appointments, 5, [ashaDoc], none⟩], 9⟩
    CollName.appointments ⟨CollName.appointments, 5, [ashaDoc], none⟩ rfl

/-- C8: a PATCH whose body sets only the status field changes exactly that
field of the first record whose id matches: every other field, the original
creation timestamp included, is preserved, and all other records are
untouched; when no record matches the id the route answers 404 and the
collection contents are unchanged. -/
theorem C8_patch_status_only_frame :
    (∀ (pre post : List AppRecord) (r : AppRecord) (st nowIso : String),
      (∀ a ∈ pre, a.id ≠ r.id) → r.timestamp ≠ "" →
      patchAppointment (pre ++ r :: post) r.id ⟨some st, none, none, none⟩ nowIso
        = some (pre ++ { r with status := st } :: post, { r with status := st }))
    ∧ (∀ (s : FileColl) (id : String) (p : Patch) (nowIso : String),
        (∀ a ∈ readJsonArray s, a.id ≠ id) →
        (patchAppointmentsRoute s id p nowIso).1.httpStatus = 404
        ∧ readJsonArray (patchAppointmentsRoute s id p nowIso).2 = readJsonArray s) := by
  constructor
  · intro pre post r st nowIso hpre hts
    induction pre with
    | nil =>
      simp [patchAppointment, mergePatch, hts]
    | cons a pre ih =>
      have ha : a.id ≠ r.id := hpre a (List.mem_cons_self a pre)
      have hpre2 : ∀ x ∈ pre, x.id ≠ r.id := fun x hx => hpre x (List.mem_cons_of_mem a hx)
      simp only [List.cons_append, patchAppointment, if_neg ha, List.append_eq]
      rw [ih hpre2]
  · intro s id p nowIso h
    have hnone : ∀ (arr : List AppRecord), (∀ a ∈ arr, a.id ≠ id) →
        patchAppointment arr id p nowIso = none := by
      intro arr
      induction arr with
      | nil => intro _; rfl
      | cons a rest ih =>
        intro hh
        have ha : a.id ≠ id := hh a (List.mem_cons_self a rest)
        simp only [patchAppointment, if_neg ha,
          ih (fun x hx => hh x (List.mem_cons_of_mem a hx))]
    have h404 := hnone (readJsonArray s) h
    simp only [readJsonArray] at h404
    exact ⟨by simp [patchAppointmentsRoute, readJsonArray, h404],
      by simp [patchAppointmentsRoute, readJsonArray, h404]⟩

/-- C8 witness: patching the status of a stored record leaves the other
record and all the other fields in place, and patching an unknown id gives
404 with the collection unchanged. -/
theorem C8_witness :
    patchAppointment [raviRec, ashaRec] ashaRec.id ⟨some "done", none, none, none⟩ "now"
      = some ([raviRec, { ashaRec with status := "done" }], { ashaRec with status := "done" })
    ∧ (patchAppointmentsRoute ⟨some [ashaRec], none⟩ "apt_missing"
        ⟨some "done", none, none, none⟩ "now").1.httpStatus = 404
    ∧ readJsonArray (patchAppointmentsRoute ⟨some [ashaRec], none⟩ "apt_missing"
        ⟨some "done", none, none, none⟩ "now").2
      = readJsonArray ⟨some [ashaRec], none⟩ :=
  ⟨C8_patch_status_only_frame.1 [raviRec] [] ashaRec "done" "now"
      (by decide) (by decide),
   (C8_patch_status_only_frame.2 ⟨some [ashaRec], none⟩ "apt_missing"
      ⟨some "done", none, none, none⟩ "now" (by decide)).1,
   (C8_patch_status_only_frame.2 ⟨some [ashaRec], none⟩ "apt_missing"
      ⟨some "done", none, none, none⟩ "now" (by decide)).2⟩

/-- C9 counterexample: the claim reads that any two distinct records in a
collection have distinct identifiers, in particular records created by
successive submissions. The file variant builds the identifier as apt_
followed by Date.now(): two submissions handled within the same millisecond
receive the same identifier. At the concrete input below both stored records
are distinct yet share the identifier apt_5. -/
theorem C9_same_millisecond_ids_collide :
    ((pushAppointment (pushAppointment ⟨some [], none⟩ subA 5 "t1").2 subB 5 "t2").2).live
      = some [mkAppointment subA 5 "t1", mkAppointment subB 5 "t2"]
    ∧ mkAppointment subA 5 "t1" ≠ mkAppointment subB 5 "t2"
    ∧ (mkAppointment subA 5 "t1").id = (mkAppointment subB 5 "t2").id := by
  refine ⟨by decide, by decide, by decide⟩

/-- C9 amended: appending a submission never alters previously stored
records, so an identifier once assigned never changes; and two records whose
identifiers were generated by the server (no client-supplied id) at distinct
milliseconds have distinct identifiers — uniqueness can fail only for
submissions landing in the same millisecond (or carrying equal
client-supplied ids). -/
theorem C9_id_uniqueness_amended :
    (∀ (s : FileColl) (obj : Submission) (t : Nat) (iso : String),
      ((pushAppointment s obj t iso).2).live
        = some (readJsonArray s ++ [mkAppointment obj t iso]))
    ∧ (∀ (t1 t2 : Nat) (o1 o2 : Submission) (i1 i2 : String),
        o1.id = none → o2.id = none → t1 ≠ t2 →
        (mkAppointment o1 t1 i1).id ≠ (mkAppointment o2 t2 i2).id) := by
  constructor
  · intro s obj t iso
    rfl
  · intro t1 t2 o1 o2 i1 i2 h1 h2 hne heq
    apply hne
    apply aptId_injective
    have e1 : (mkAppointment o1 t1 i1).id = "apt_" ++ Nat.repr t1 := by
      simp [mkAppointment, jsOrElse, h1]
    have e2 : (mkAppointment o2 t2 i2).id = "apt_" ++ Nat.repr t2 := by
      simp [mkAppointment, jsOrElse, h2]
    rw [e1, e2] at heq
    exact heq

/-- C9 witness: a push leaves the stored record in place, and records
generated at milliseconds 5 and 6 get distinct identifiers. -/
theorem C9_witness :
    ((pushAppointment ⟨some [ashaRec], none⟩ subA 5 "t1").2).live
      = some (readJsonArray ⟨some [ashaRec], none⟩ ++ [mkAppointment subA 5 "t1"])
    ∧ (mkAppointment subA 5 "t1").id ≠ (mkAppointment subB 6 "t2").id :=
  ⟨C9_id_uniqueness_amended.1 ⟨some [ashaRec], none⟩ subA 5 "t1",
   C9_id_uniqueness_amended.2 5 6 subA subB "t1" "t2" rfl rfl (by decide)⟩

/-- C10: clearing a file-backed collection whose live file does not exist
creates both an empty live file and an empty backup file, so a subsequent
undo succeeds with 200 and a success body, restoring the empty contents,
rather than failing with the no-backup error — even though nothing was ever
stored or cleared. -/
theorem C10_clear_missing_file_enables_undo :
    ∀ s : FileColl, s.live = none →
      (clearFile s).live = some []
      ∧ (clearFile s).backupFile = some []
      ∧ (undoAppointmentsRoute (clearFile s)).1.httpStatus = 200
      ∧ lookupField (undoAppointmentsRoute (clearFile s)).1.body "status"
        = some (JScalar.jstr "success")
      ∧ ((undoAppointmentsRoute (clearFile s)).2).live = some [] := by
  intro s h
  have hc : clearFile s = ⟨some [], some []⟩ := by
    simp [clearFile, h]
  rw [hc]
  exact ⟨rfl, rfl, rfl, by decide, rfl⟩

/-- C10 witness: the missing-file clear and the following undo evaluated at
the state with no files at all. -/
theorem C10_witness :
    (clearFile ⟨none, none⟩).live = some []
    ∧ (clearFile ⟨none, none⟩).backupFile = some []
    ∧ (undoAppointmentsRoute (clearFile ⟨none, none⟩)).1.httpStatus = 200
    ∧ lookupField (undoAppointmentsRoute (clearFile ⟨none, none⟩)).1.body "status"
      = some (JScalar.jstr "success")
    ∧ ((undoAppointmentsRoute (clearFile ⟨none, none⟩)).2).live = some [] :=
  C10_clear_missing_file_enables_undo ⟨none, none⟩ rfl

end Shreesiddhi
